import Mathlib

/-!
Verification of the nuXgal event-generation and likelihood pipeline
(KIPAC/analysis_001) against its natural-language specification.

The Python source is shallowly embedded: numpy arrays become lists,
stochastic samplers (np.random.poisson, np.random.rand, pixel sampling from
an angular pdf) become explicit arguments or explicit pseudo-random state,
floating point arithmetic is modelled over ℚ or ℝ.  Parts of the repository
that the claims depend on but that are not present under src/ (Defaults.py,
Generator.py, Likelihood.py) are modelled from the specification; those
definitions carry a doc comment starting with the words Modelled from the
spec.
-/

namespace NuXgal

/-- Number of energy bins: from scripts/analyzeICdata.py,
map_logE_edge = np.linspace(2, 9, 8) gives 8 edges hence 7 bins. -/
def NEbin : ℕ := 7

/-- Log-energy bin edges, np.linspace(2, 9, 8) from scripts/analyzeICdata.py. -/
def map_logE_edge : List ℚ := [2, 3, 4, 5, 6, 7, 8, 9]

/-- A counts map built by accumulating one count at each drawn pixel
(countsmap[pix] += 1 over the list of drawn pixels). -/
def countsMapOfDraws (npix : ℕ) (draws : List (Fin npix)) : Fin npix → ℕ :=
  fun p => draws.count p

/-- Total number of events in a map: sum of all pixel values. -/
def mapTotal (npix : ℕ) (m : Fin npix → ℕ) : ℕ :=
  ∑ p, m p

/-- Modelled from the spec: `generate_event_maps` of AtmGenerator / AstroGenerator_v2
(file Generator.py is not under src/).  Per spec section 4.2 together with its use in
EventGenerator.py (the callers first draw the per-bin totals and then store them in
nevents_expected), the generator places, for each energy bin i, exactly
nevents_expected[i] events at pixels sampled from the bin's angular probability
distribution, accumulating one count per drawn pixel.  The pixel sampler is passed
explicitly: pixelDraws i j is the pixel of the j-th event of bin i. -/
def generate_event_maps (npix : ℕ) (nevents_expected : List ℕ)
    (pixelDraws : ℕ → ℕ → Fin npix) : List (Fin npix → ℕ) :=
  (List.range nevents_expected.length).map fun i =>
    countsMapOfDraws npix ((List.range (nevents_expected.getD i 0)).map (pixelDraws i))

/-- From EventGenerator.atmEvent: draw eventnumber_Ebin = np.random.poisson of
(nevents_expected times duration_year), store it as the generator's expected counts and
generate the event maps.  The Poisson sampler np.random.poisson is an explicit
argument taking the list of means. -/
def atmEvent (npix : ℕ) (nevents_expected : List ℚ) (duration_year : ℚ)
    (poisson : List ℚ → List ℕ) (pixelDraws : ℕ → ℕ → Fin npix) :
    List (Fin npix → ℕ) :=
  generate_event_maps npix
    (poisson (nevents_expected.map fun x => x * duration_year)) pixelDraws

/-- From EventGenerator.astroEvent_galaxy: store normalized_counts_map (which only
shapes the pixel sampler, here pixelDraws) and intrinsicCounts, then generate the
event maps; intrinsicCounts is the per-bin list of event numbers to place. -/
def astroEvent_galaxy (npix : ℕ) (intrinsicCounts : List ℕ)
    (pixelDraws : ℕ → ℕ → Fin npix) : List (Fin npix → ℕ) :=
  generate_event_maps npix intrinsicCounts pixelDraws

/-- From EventGenerator.computeSyntheticData: the astrophysical fraction per bin.
If nevts[i] is nonzero it is Nastro_1yr_Aeffmax[i] * f_diff / nevts[i]; otherwise it
is 1 when Nastro_1yr_Aeffmax[i] is nonzero and 0 (the initialisation value) when both
vanish. -/
def f_astro (nevts Nastro1yr : List ℚ) (f_diff : ℚ) (i : ℕ) : ℚ :=
  if nevts.getD i 0 ≠ 0 then Nastro1yr.getD i 0 * f_diff / nevts.getD i 0
  else if Nastro1yr.getD i 0 ≠ 0 then 1 else 0

/-- From EventGenerator.computeSyntheticData: the atmospheric fraction per bin,
set to 1 - f_astro[i] only in the branch where nevts[i] is nonzero and left at the
initialisation value 0 otherwise. -/
def f_atm (nevts Nastro1yr : List ℚ) (f_diff : ℚ) (i : ℕ) : ℚ :=
  if nevts.getD i 0 ≠ 0 then 1 - f_astro nevts Nastro1yr f_diff i else 0

/-- From EventGenerator.computeSyntheticData: the Poisson means for the atmospheric
component, nevts * N_yr * f_atm elementwise over the NEbin bins. -/
def atmMeans (nevts Nastro1yr : List ℚ) (N_yr f_diff : ℚ) : List ℚ :=
  (List.range NEbin).map fun i =>
    nevts.getD i 0 * N_yr * f_atm nevts Nastro1yr f_diff i

/-- From EventGenerator.computeSyntheticData: the Poisson means for the
astrophysical component, Nastro_1yr_Aeffmax * N_yr * f_diff elementwise. -/
def astroMeans (Nastro1yr : List ℚ) (N_yr f_diff : ℚ) : List ℚ :=
  (List.range NEbin).map fun i => Nastro1yr.getD i 0 * N_yr * f_diff

/-- Elementwise sum of two count maps (countsmap = atm_map + astro_map). -/
def mapAdd (npix : ℕ) (m1 m2 : Fin npix → ℕ) : Fin npix → ℕ :=
  fun p => m1 p + m2 p

/-- From EventGenerator.computeSyntheticData: draw Natm = poisson(nevts * N_yr * f_atm)
and generate the atmospheric maps, draw Nastro = poisson(Nastro_1yr_Aeffmax * N_yr *
f_diff) and generate the astrophysical maps via astroEvent_galaxy, and return their
elementwise sum.  The two np.random.poisson calls and the two pixel samplers (the
atmospheric cos-zenith pdf and the galaxy-density pdf) are explicit arguments;
map writing (write_map) is I/O and out of scope. -/
def computeSyntheticData (npix : ℕ) (nevts Nastro1yr : List ℚ) (N_yr f_diff : ℚ)
    (poissonAtm poissonAstro : List ℚ → List ℕ)
    (pixAtm pixAstro : ℕ → ℕ → Fin npix) : List (Fin npix → ℕ) :=
  List.zipWith (mapAdd npix)
    (generate_event_maps npix (poissonAtm (atmMeans nevts Nastro1yr N_yr f_diff)) pixAtm)
    (astroEvent_galaxy npix (poissonAstro (astroMeans Nastro1yr N_yr f_diff)) pixAstro)

/-- Concrete Poisson-sampler stand-in used by witnesses: truncates each mean. -/
def witPoisson : List ℚ → List ℕ := fun l => l.map fun q => q.num.toNat

/-- Concrete all-zero sampler used by witnesses (a Poisson sampler at mean 0). -/
def witPoissonZ : List ℚ → List ℕ := fun l => l.map fun _ => 0

/-- Concrete pixel sampler on a 2-pixel sky used by witnesses. -/
def witPix2 : ℕ → ℕ → Fin 2 := fun _ _ => 0

/-- Concrete pixel sampler on a 1-pixel sky used by witnesses. -/
def witPix1 : ℕ → ℕ → Fin 1 := fun _ _ => 0

/-- Modelled from the spec: the state the Likelihood engine assembles at construction
(Likelihood.py is not under src/): per-bin per-multipole background and signal
null-hypothesis means and variances, and the multipole bound of the pixelization. -/
structure LLHStats where
  w_atm_mean : ℕ → ℕ → ℚ
  w_atm_var : ℕ → ℕ → ℚ
  w_astro_mean : ℕ → ℕ → ℚ
  w_astro_var : ℕ → ℕ → ℚ
  lmax : ℕ

/-- Modelled from the spec: Likelihood.lnL (Likelihood.py is not under src/).  For each
energy bin in the fit range and each multipole from lmin up to the bandlimit, the
expected cross-correlation is the linear combination of the background and signal null
means weighted by (1 - f i) and f i, scaled by the observed counts, the variance is
the corresponding combination of the null variances, and a Gaussian log-likelihood
term is accumulated. -/
def lnL (S : LLHStats) (f : ℕ → ℚ) (w_data : ℕ → ℕ → ℚ) (Ncount : ℕ → ℚ)
    (lmin Ebinmin Ebinmax : ℕ) : ℚ :=
  ∑ i in Finset.Ico Ebinmin Ebinmax, ∑ l in Finset.Ico lmin S.lmax,
    -((w_data i l - Ncount i * ((1 - f i) * S.w_atm_mean i l + f i * S.w_astro_mean i l)) ^ 2
      / (2 * ((1 - f i) * S.w_atm_var i l + f i * S.w_astro_var i l)))

/-- Modelled from the spec: Likelihood.minimize__lnL (Likelihood.py is not under src/).
The derivative-free bounded numerical optimizer is an explicit argument mapping the
objective to the best-fit fraction vector; the function returns that vector together
with the test statistic 2 (lnL at best fit minus lnL at the all-zero vector). -/
def minimize__lnL (S : LLHStats) (optimizer : ((ℕ → ℚ) → ℚ) → (ℕ → ℚ))
    (w_data : ℕ → ℕ → ℚ) (Ncount : ℕ → ℚ) (lmin Ebinmin Ebinmax : ℕ) :
    (ℕ → ℚ) × ℚ :=
  let bf := optimizer fun f => lnL S f w_data Ncount lmin Ebinmin Ebinmax
  (bf, 2 * (lnL S bf w_data Ncount lmin Ebinmin Ebinmax
            - lnL S (fun _ => 0) w_data Ncount lmin Ebinmin Ebinmax))

/-- From EventGenerator.randPowerLaw: draw Ntotal energies from dN/dE proportional to
E^alpha between emin and emax.  The np.random.rand(Ntotal) draws are the explicit list
us (each in [0, 1)); at alpha = -1 the draw is log-uniform, otherwise it is the
inverse CDF applied to the power transform. -/
noncomputable def randPowerLaw (alpha : ℝ) (Ntotal : ℕ) (emin emax : ℝ)
    (us : List ℝ) : List ℝ :=
  if alpha = -1 then
    us.map fun u => Real.exp ((Real.log emax - Real.log emin) * u + Real.log emin)
  else
    us.map fun u =>
      ((emax ^ (alpha + 1) - emin ^ (alpha + 1)) * u + emin ^ (alpha + 1)) ^ (1 / (alpha + 1))

/-- Base-10 logarithm, np.log10. -/
noncomputable def log10 (x : ℝ) : ℝ := Real.log x / Real.log 10

/-- The log-energy bin edges as reals (Defaults.map_logE_edge). -/
noncomputable def map_logE_edgeR : List ℝ := [2, 3, 4, 5, 6, 7, 8, 9]

/-- Per-bin counts of np.histogram: bin i counts the values x with
edges[i] <= x < edges[i+1], the last bin being closed on the right. -/
noncomputable def histCounts (xs : List ℝ) (edges : List ℝ) : List ℕ :=
  (List.range (edges.length - 1)).map fun i =>
    xs.countP fun x =>
      @decide (edges.getD i 0 ≤ x ∧
          (if i = edges.length - 2 then x ≤ edges.getD (i + 1) 0
           else x < edges.getD (i + 1) 0))
        (Classical.propDecidable _)

/-- The value of np.histogram(xs, edges): the 2-tuple of per-bin counts and the bin
edges themselves. -/
noncomputable def np_histogram (xs : List ℝ) (edges : List ℝ) : List ℕ × List ℝ :=
  (histCounts xs edges, edges)

/-- The object EventGenerator.astroEvent_galaxy_powerlaw computes as intrinsicCounts
and delegates to astroEvent_galaxy: the ENTIRE result of
np.histogram(np.log10(energy), Defaults.map_logE_edge) — in Python a 2-element
sequence holding the counts array and the bin-edges array — not its counts component.
Written as the 2-element sequence of numeric arrays the delegate receives. -/
noncomputable def powerlaw_delegated (alpha : ℝ) (Ntotal : ℕ) (emin emax : ℝ)
    (us : List ℝ) : List (List ℝ) :=
  let h := np_histogram ((randPowerLaw alpha Ntotal emin emax us).map log10) map_logE_edgeR
  [h.1.map fun n => (n : ℝ), h.2]

/-- np.searchsorted with the default left side on a sorted table: the insertion index,
which is the number of table entries strictly below the probe. -/
def searchsorted (a : List ℚ) (v : ℚ) : ℕ :=
  a.countP fun x => decide (x < v)

/-- Numpy integer indexing as used on Aeff_table: a negative index counts from the end
of the array; an index out of bounds on either side is an IndexError (none). -/
def npIndex (a : List ℚ) (i : ℤ) : ℤ :=
  if i < 0 then (a.length : ℤ) + i else i

/-- Numpy element access a[i] with negative-index wrap-around. -/
def npGet (a : List ℚ) (i : ℤ) : Option ℚ :=
  if 0 ≤ npIndex a i ∧ npIndex a i < (a.length : ℤ) then a[(npIndex a i).toNat]? else none

/-- From scripts/IC3yrIntensityMap.py getFlux_Countmaps:
index_coszenith_Aeff_table = np.searchsorted(cosZenith_min, cos) - 1.
The same searchsorted-minus-one idiom is index_coszenith in
scripts/analyzeICdata.py. -/
def index_coszenith_Aeff_table (cosZenith_min : List ℚ) (cosz : ℚ) : ℤ :=
  (searchsorted cosZenith_min cosz : ℤ) - 1

/-- From scripts/IC3yrIntensityMap.py getFlux_Countmaps:
Aeff_event = Aeff_table[iE * 200 + icosz], the flat lookup into the 70 x 200
effective-area table for energy-bin row iE and cos-zenith column icosz. -/
def Aeff_lookup (Aeff_table cosZenith_min : List ℚ) (iE : ℕ) (cosz : ℚ) : Option ℚ :=
  npGet Aeff_table ((iE : ℤ) * 200 + index_coszenith_Aeff_table cosZenith_min cosz)

/-- A detector event as consumed by the map-building loop of
scripts/IC3yrIntensityMap.py getFlux_Countmaps: its looked-up effective area
Aeff_event[i], its zenith angle in degrees AtmBG_file[i][6], and the (energy-bin,
healpix) slot its direction maps to, flattened to one pixel index. -/
structure ICEvent (npix : ℕ) where
  aeff : ℚ
  zenith : ℚ
  pixel : Fin npix

/-- From the loop guard: the event is skipped (only a diagnostic print happens) iff
Aeff_event[i] == 0 AND AtmBG_file[i][6] > 90. -/
def eventSkipped {npix : ℕ} (e : ICEvent npix) : Bool :=
  decide (e.aeff = 0) && decide (90 < e.zenith)

/-- One iteration of the event loop: a skipped event leaves both maps unchanged; any
other event adds 1/Aeff to its flux-map pixel and 1 to its counts-map pixel. -/
def icStep (npix : ℕ) (maps : (Fin npix → ℚ) × (Fin npix → ℕ)) (e : ICEvent npix) :
    (Fin npix → ℚ) × (Fin npix → ℕ) :=
  if eventSkipped e then maps
  else
    (fun p => maps.1 p + if p = e.pixel then 1 / e.aeff else 0,
     fun p => maps.2 p + if p = e.pixel then 1 else 0)

/-- The flux and counts maps built by the event loop of getFlux_Countmaps, starting
from all-zero maps. -/
def fluxCountsMaps (npix : ℕ) (events : List (ICEvent npix)) :
    (Fin npix → ℚ) × (Fin npix → ℕ) :=
  events.foldl (icStep npix) (fun _ => 0, fun _ => 0)

/-- A linear-congruential step standing for the global numpy pseudo-random state
update; the concrete constants are the classic POSIX ones. -/
def lcg (s : ℕ) : ℕ := (1103515245 * s + 12345) % 2 ^ 31

/-- Iterated PRNG state. -/
def lcgIter (s : ℕ) : ℕ → ℕ
  | 0 => s
  | n + 1 => lcg (lcgIter s n)

/-- Seeding the global random source (np.random.seed) maps the seed into the state
space. -/
def np_seed (seed : ℕ) : ℕ := seed % 2 ^ 31

/-- A Poisson sampler driven by explicit PRNG state: the i-th per-bin draw is a
bounded pseudo-random integer derived from the state.  Its distributional shape is
irrelevant here: the reproducibility claim is about the deterministic dependence of
all draws on the seeded state. -/
def poissonPRNG (st : ℕ) : List ℚ → List ℕ :=
  fun means => means.enum.map fun iq => lcgIter st (iq.1 + 1) % 6

/-- A pixel sampler driven by explicit PRNG state: the j-th event of bin i lands on a
pseudo-random pixel derived from the state. -/
def pixelPRNG (npix st : ℕ) : ℕ → ℕ → Fin (npix + 1) :=
  fun i j => ⟨lcgIter st (101 + 31 * i + j) % (npix + 1), Nat.mod_lt _ (Nat.succ_pos npix)⟩

/-- Modelled from the spec: one trial of the test-statistic loop in
tests/test_likelihood.py (generateData and Likelihood.py are not under src/):
generate the synthetic event maps from the current pseudo-random state, reduce them
through the cross-correlation oracle, take the per-bin counts, and fit with
minimize__lnL; the trial returns the event maps, the best-fit fraction vector and
the test statistic. -/
def runTrial (npix : ℕ) (S : LLHStats) (optimizer : ((ℕ → ℚ) → ℚ) → (ℕ → ℚ))
    (nevts : List ℚ) (dur : ℚ)
    (crossCorr : List (Fin (npix + 1) → ℕ) → ℕ → ℕ → ℚ)
    (lmin Ebinmin Ebinmax : ℕ) (state : ℕ) :
    List (Fin (npix + 1) → ℕ) × (ℕ → ℚ) × ℚ :=
  let datamap := atmEvent (npix + 1) nevts dur (poissonPRNG state) (pixelPRNG npix state)
  let Ncount : ℕ → ℚ := fun i => (mapTotal (npix + 1) (datamap.getD i fun _ => 0) : ℚ)
  let fit := minimize__lnL S optimizer (crossCorr datamap) Ncount lmin Ebinmin Ebinmax
  (datamap, fit.1, fit.2)

/-- The PRNG state left behind by a trial, modelled as a fixed advance of the
stream. -/
def trialAdvance (state : ℕ) : ℕ := lcgIter state 17

/-- Two trials with the caller re-seeding the random source to the same explicit seed
before each one. -/
def twoTrialsReseeded (npix : ℕ) (S : LLHStats) (optimizer : ((ℕ → ℚ) → ℚ) → (ℕ → ℚ))
    (nevts : List ℚ) (dur : ℚ)
    (crossCorr : List (Fin (npix + 1) → ℕ) → ℕ → ℕ → ℚ)
    (lmin Ebinmin Ebinmax : ℕ) (seed : ℕ) :
    (List (Fin (npix + 1) → ℕ) × (ℕ → ℚ) × ℚ)
      × (List (Fin (npix + 1) → ℕ) × (ℕ → ℚ) × ℚ) :=
  (runTrial npix S optimizer nevts dur crossCorr lmin Ebinmin Ebinmax (np_seed seed),
   runTrial npix S optimizer nevts dur crossCorr lmin Ebinmin Ebinmax (np_seed seed))

/-- Two consecutive trials without re-seeding: the second starts from the advanced
global random state. -/
def twoTrialsUnseeded (npix : ℕ) (S : LLHStats) (optimizer : ((ℕ → ℚ) → ℚ) → (ℕ → ℚ))
    (nevts : List ℚ) (dur : ℚ)
    (crossCorr : List (Fin (npix + 1) → ℕ) → ℕ → ℕ → ℚ)
    (lmin Ebinmin Ebinmax : ℕ) (state : ℕ) :
    (List (Fin (npix + 1) → ℕ) × (ℕ → ℚ) × ℚ)
      × (List (Fin (npix + 1) → ℕ) × (ℕ → ℚ) × ℚ) :=
  (runTrial npix S optimizer nevts dur crossCorr lmin Ebinmin Ebinmax state,
   runTrial npix S optimizer nevts dur crossCorr lmin Ebinmin Ebinmax (trialAdvance state))

/-- Concrete likelihood statistics used in the stochasticity demonstration. -/
def witStats : LLHStats :=
  ⟨fun _ _ => 0, fun _ _ => 1, fun _ _ => 0, fun _ _ => 1, 0⟩

/-- Concrete optimizer oracle used in the stochasticity demonstration. -/
def witOpt : ((ℕ → ℚ) → ℚ) → (ℕ → ℚ) := fun _ _ => 0

/-- Concrete cross-correlation oracle used in the stochasticity demonstration. -/
def witCC : List (Fin 2 → ℕ) → ℕ → ℕ → ℚ := fun _ _ _ => 0

lemma sum_count_univ {n : ℕ} (l : List (Fin n)) :
    ∑ p : Fin n, l.count p = l.length := by
  induction l with
  | nil => simp
  | cons a tl ih =>
    have h1 : ∀ p : Fin n, (a :: tl).count p = tl.count p + if a = p then 1 else 0 := by
      intro p
      simp [List.count_cons]
    calc ∑ p : Fin n, (a :: tl).count p
        = ∑ p : Fin n, (tl.count p + if a = p then 1 else 0) := by
          exact Finset.sum_congr rfl fun p _ => h1 p
      _ = (∑ p : Fin n, tl.count p) + ∑ p : Fin n, (if a = p then 1 else 0) := by
          rw [Finset.sum_add_distrib]
      _ = tl.length + 1 := by
          rw [ih, Finset.sum_ite_eq Finset.univ a fun _ => 1]
          simp
      _ = (a :: tl).length := by simp [add_comm]

lemma mapTotal_countsMapOfDraws {n : ℕ} (draws : List (Fin n)) :
    mapTotal n (countsMapOfDraws n draws) = draws.length := by
  unfold mapTotal countsMapOfDraws
  exact sum_count_univ draws

lemma getD_range_map {α : Type} (f : ℕ → α) (n i : ℕ) (d : α) (hi : i < n) :
    ((List.range n).map f).getD i d = f i := by
  rw [List.getD_eq_getElem?_getD, List.getElem?_map, List.getElem?_range hi]
  rfl

lemma getD_map_of_lt {α β : Type} (f : α → β) (l : List α) (i : ℕ) (d : β) (d' : α)
    (hi : i < l.length) :
    (l.map f).getD i d = f (l.getD i d') := by
  rw [List.getD_eq_getElem?_getD, List.getElem?_map,
    List.getElem?_eq_getElem hi, List.getD_eq_getElem?_getD,
    List.getElem?_eq_getElem hi]
  rfl

lemma getD_zipWith_of_lt {α β γ : Type} (f : α → β → γ) (l1 : List α) (l2 : List β)
    (i : ℕ) (d1 : α) (d2 : β) (d3 : γ) (h1 : i < l1.length) (h2 : i < l2.length) :
    (List.zipWith f l1 l2).getD i d3 = f (l1.getD i d1) (l2.getD i d2) := by
  induction l1 generalizing l2 i with
  | nil => simp at h1
  | cons a t1 ih =>
    cases l2 with
    | nil => simp at h2
    | cons b t2 =>
      cases i with
      | zero => rfl
      | succ k =>
        simp only [List.zipWith_cons_cons, List.getD_cons_succ]
        exact ih t2 k (Nat.lt_of_succ_lt_succ h1) (Nat.lt_of_succ_lt_succ h2)

lemma generate_event_maps_length (npix : ℕ) (totals : List ℕ)
    (pix : ℕ → ℕ → Fin npix) :
    (generate_event_maps npix totals pix).length = totals.length := by
  simp [generate_event_maps]

lemma generate_event_maps_getD (npix : ℕ) (totals : List ℕ) (pix : ℕ → ℕ → Fin npix)
    (i : ℕ) (hi : i < totals.length) :
    (generate_event_maps npix totals pix).getD i (fun _ => 0)
      = countsMapOfDraws npix ((List.range (totals.getD i 0)).map (pix i)) := by
  unfold generate_event_maps
  exact getD_range_map _ _ _ _ hi

lemma generate_event_maps_total (npix : ℕ) (totals : List ℕ)
    (pix : ℕ → ℕ → Fin npix) (i : ℕ) (hi : i < totals.length) :
    mapTotal npix ((generate_event_maps npix totals pix).getD i (fun _ => 0))
      = totals.getD i 0 := by
  rw [generate_event_maps_getD npix totals pix i hi, mapTotal_countsMapOfDraws]
  simp

lemma generate_event_maps_zero_bin (npix : ℕ) (totals : List ℕ)
    (pix : ℕ → ℕ → Fin npix) (i : ℕ) (hi : i < totals.length)
    (hz : totals.getD i 0 = 0) (p : Fin npix) :
    (generate_event_maps npix totals pix).getD i (fun _ => 0) p = 0 := by
  rw [generate_event_maps_getD npix totals pix i hi, hz]
  rfl

/-- C3: for every energy bin, the background map drawn by atmEvent and the signal map
drawn by astroEvent_galaxy have pixel-sum exactly equal to that bin's drawn total
count (the Poisson draw inside atmEvent; the per-bin totals passed in by the
Poisson-drawing callers of astroEvent_galaxy), and every pixel value is a
non-negative integer. -/
theorem mapSum_eq_drawn_total (npix : ℕ) (nevts : List ℚ) (dur : ℚ)
    (poisson : List ℚ → List ℕ) (pixA pixB : ℕ → ℕ → Fin npix)
    (intrinsicCounts : List ℕ) (i j : ℕ)
    (hi : i < (poisson (nevts.map fun x => x * dur)).length)
    (hj : j < intrinsicCounts.length) :
    mapTotal npix ((atmEvent npix nevts dur poisson pixA).getD i (fun _ => 0))
      = (poisson (nevts.map fun x => x * dur)).getD i 0
    ∧ mapTotal npix ((astroEvent_galaxy npix intrinsicCounts pixB).getD j (fun _ => 0))
      = intrinsicCounts.getD j 0
    ∧ ∀ p, (0 : ℤ) ≤ ((atmEvent npix nevts dur poisson pixA).getD i (fun _ => 0)) p :=
  ⟨generate_event_maps_total npix _ pixA i hi,
   generate_event_maps_total npix intrinsicCounts pixB j hj,
   fun p => Int.natCast_nonneg _⟩

/-- Witness for C3 at a concrete instantiation. -/
theorem mapSum_eq_drawn_total_witness :
    0 < (witPoisson ([(3 : ℚ)].map fun x => x * 2)).length
    ∧ (mapTotal 2 ((atmEvent 2 [3] 2 witPoisson witPix2).getD 0 (fun _ => 0))
        = (witPoisson ([(3 : ℚ)].map fun x => x * 2)).getD 0 0
      ∧ mapTotal 2 ((astroEvent_galaxy 2 [4] witPix2).getD 0 (fun _ => 0))
        = [4].getD 0 0
      ∧ ∀ p, (0 : ℤ) ≤ ((atmEvent 2 [3] 2 witPoisson witPix2).getD 0 (fun _ => 0)) p) :=
  ⟨by decide,
   mapSum_eq_drawn_total 2 [3] 2 witPoisson witPix2 witPix2 [4] 0 0 (by decide) (by decide)⟩

/-- C4: atmEvent passes to the Poisson sampler, for each energy bin, a mean equal to
that bin's expected one-year event count multiplied by the duration in years, and the
returned per-bin map accumulates exactly the drawn events (its pixel-sum is the
Poisson draw at those means). -/
theorem atmEvent_poisson_mean_total (npix : ℕ) (nevts : List ℚ) (duration_year : ℚ)
    (poisson : List ℚ → List ℕ) (pix : ℕ → ℕ → Fin npix) (i : ℕ)
    (hn : i < nevts.length)
    (hp : i < (poisson (nevts.map fun x => x * duration_year)).length) :
    (nevts.map fun x => x * duration_year).getD i 0 = nevts.getD i 0 * duration_year
    ∧ mapTotal npix ((atmEvent npix nevts duration_year poisson pix).getD i (fun _ => 0))
        = (poisson (nevts.map fun x => x * duration_year)).getD i 0 :=
  ⟨getD_map_of_lt _ nevts i 0 0 hn,
   generate_event_maps_total npix _ pix i hp⟩

/-- Witness for C4 at a concrete instantiation. -/
theorem atmEvent_poisson_mean_total_witness :
    0 < ([(5 : ℚ)].length)
    ∧ (([(5 : ℚ)].map fun x => x * 3).getD 0 0 = [(5 : ℚ)].getD 0 0 * 3
      ∧ mapTotal 2 ((atmEvent 2 [5] 3 witPoisson witPix2).getD 0 (fun _ => 0))
          = (witPoisson ([(5 : ℚ)].map fun x => x * 3)).getD 0 0) :=
  ⟨by decide, atmEvent_poisson_mean_total 2 [5] 3 witPoisson witPix2 0 (by decide) (by decide)⟩

/-- C5: in every energy bin whose expected count vanishes, atmEvent (expected one-year
count zero), astroEvent_galaxy (per-bin total zero) and computeSyntheticData (both the
atmospheric and the astrophysical expectation zero) return an all-zero map for that
bin; the functions are total, so no error is raised.  The Poisson samplers are only
assumed to return draw 0 at mean 0 and to preserve length, which any Poisson sampler
does. -/
theorem zero_expected_all_zero (npix : ℕ) (nevts Nastro1yr : List ℚ)
    (dur N_yr f_diff : ℚ) (poisson poissonAtm poissonAstro : List ℚ → List ℕ)
    (pix pixA pixB pixC : ℕ → ℕ → Fin npix) (intrinsicCounts : List ℕ) (i : ℕ)
    (hpz : ∀ l j, j < l.length → l.getD j 0 = 0 → (poisson l).getD j 0 = 0)
    (hpzA : ∀ l j, j < l.length → l.getD j 0 = 0 → (poissonAtm l).getD j 0 = 0)
    (hpzB : ∀ l j, j < l.length → l.getD j 0 = 0 → (poissonAstro l).getD j 0 = 0)
    (hlen : ∀ l, (poisson l).length = l.length)
    (hlenA : ∀ l, (poissonAtm l).length = l.length)
    (hlenB : ∀ l, (poissonAstro l).length = l.length)
    (hi : i < nevts.length) (hiN : i < NEbin) (hic : i < intrinsicCounts.length)
    (hz : nevts.getD i 0 = 0) (hzN : Nastro1yr.getD i 0 = 0)
    (hzc : intrinsicCounts.getD i 0 = 0) :
    (∀ p, (atmEvent npix nevts dur poisson pix).getD i (fun _ => 0) p = 0)
    ∧ (∀ p, (astroEvent_galaxy npix intrinsicCounts pixC).getD i (fun _ => 0) p = 0)
    ∧ (∀ p, (computeSyntheticData npix nevts Nastro1yr N_yr f_diff
              poissonAtm poissonAstro pixA pixB).getD i (fun _ => 0) p = 0) := by
  have hml : i < (nevts.map fun x => x * dur).length := by
    simpa using hi
  have hm0 : (nevts.map fun x => x * dur).getD i 0 = 0 := by
    rw [getD_map_of_lt _ nevts i 0 0 hi, hz, zero_mul]
  have hAmlen : (atmMeans nevts Nastro1yr N_yr f_diff).length = NEbin := by
    simp [atmMeans]
  have hBmlen : (astroMeans Nastro1yr N_yr f_diff).length = NEbin := by
    simp [astroMeans]
  have hAm0 : (atmMeans nevts Nastro1yr N_yr f_diff).getD i 0 = 0 := by
    rw [atmMeans, getD_range_map _ _ _ _ hiN, hz, zero_mul, zero_mul]
  have hBm0 : (astroMeans Nastro1yr N_yr f_diff).getD i 0 = 0 := by
    rw [astroMeans, getD_range_map _ _ _ _ hiN, hzN, zero_mul, zero_mul]
  refine ⟨fun p => ?_, fun p => ?_, fun p => ?_⟩
  · have hd0 : (poisson (nevts.map fun x => x * dur)).getD i 0 = 0 :=
      hpz _ i hml hm0
    have hip : i < (poisson (nevts.map fun x => x * dur)).length := by
      rw [hlen]; exact hml
    exact generate_event_maps_zero_bin npix _ pix i hip hd0 p
  · exact generate_event_maps_zero_bin npix intrinsicCounts pixC i hic hzc p
  · have hdA : (poissonAtm (atmMeans nevts Nastro1yr N_yr f_diff)).getD i 0 = 0 :=
      hpzA _ i (by rw [hAmlen]; exact hiN) hAm0
    have hdB : (poissonAstro (astroMeans Nastro1yr N_yr f_diff)).getD i 0 = 0 :=
      hpzB _ i (by rw [hBmlen]; exact hiN) hBm0
    have h1 : i < (generate_event_maps npix
        (poissonAtm (atmMeans nevts Nastro1yr N_yr f_diff)) pixA).length := by
      rw [generate_event_maps_length, hlenA, hAmlen]; exact hiN
    have h2 : i < (astroEvent_galaxy npix
        (poissonAstro (astroMeans Nastro1yr N_yr f_diff)) pixB).length := by
      rw [astroEvent_galaxy, generate_event_maps_length, hlenB, hBmlen]; exact hiN
    have hiA : i < (poissonAtm (atmMeans nevts Nastro1yr N_yr f_diff)).length := by
      rw [hlenA, hAmlen]; exact hiN
    have hiB : i < (poissonAstro (astroMeans Nastro1yr N_yr f_diff)).length := by
      rw [hlenB, hBmlen]; exact hiN
    rw [computeSyntheticData,
      getD_zipWith_of_lt (mapAdd npix) _ _ i (fun _ => 0) (fun _ => 0) (fun _ => 0) h1 h2]
    show (generate_event_maps npix
          (poissonAtm (atmMeans nevts Nastro1yr N_yr f_diff)) pixA).getD i (fun _ => 0) p
        + (generate_event_maps npix
            (poissonAstro (astroMeans Nastro1yr N_yr f_diff)) pixB).getD i (fun _ => 0) p = 0
    rw [generate_event_maps_zero_bin npix _ pixA i hiA hdA p,
      generate_event_maps_zero_bin npix _ pixB i hiB hdB p]

/-- Witness for C5 at a concrete instantiation. -/
theorem zero_expected_all_zero_witness :
    ([(0 : ℚ)].getD 0 0 = 0)
    ∧ ((∀ p, (atmEvent 1 [0] 1 witPoissonZ witPix1).getD 0 (fun _ => 0) p = 0)
      ∧ (∀ p, (astroEvent_galaxy 1 [0] witPix1).getD 0 (fun _ => 0) p = 0)
      ∧ (∀ p, (computeSyntheticData 1 [0] [0] 1 1
                witPoissonZ witPoissonZ witPix1 witPix1).getD 0 (fun _ => 0) p = 0)) :=
  ⟨by decide,
   zero_expected_all_zero 1 [0] [0] 1 1 1 witPoissonZ witPoissonZ witPoissonZ
     witPix1 witPix1 witPix1 witPix1 [0] 0
     (fun l j hj _ => by rw [witPoissonZ, getD_map_of_lt _ l j 0 0 hj])
     (fun l j hj _ => by rw [witPoissonZ, getD_map_of_lt _ l j 0 0 hj])
     (fun l j hj _ => by rw [witPoissonZ, getD_map_of_lt _ l j 0 0 hj])
     (fun l => List.length_map l _) (fun l => List.length_map l _)
     (fun l => List.length_map l _)
     (by decide) (by decide) (by decide) (by decide) (by decide) (by decide)⟩

/-- C10: in every energy bin with nonzero expected one-year background count and
astrophysical fraction at most 1, computeSyntheticData scales the atmospheric
expectation by one minus the astrophysical fraction, the total Poisson mean
(atmospheric plus astrophysical) equals the one-year background count times the
duration independently of f_diff, and the returned map is the elementwise sum of the
atmospheric and astrophysical component maps. -/
theorem computeSyntheticData_total_rate (npix : ℕ) (nevts Nastro1yr : List ℚ)
    (N_yr f_diff : ℚ) (i : ℕ) (poissonAtm poissonAstro : List ℚ → List ℕ)
    (pixA pixB : ℕ → ℕ → Fin npix)
    (hiN : i < NEbin)
    (hne : nevts.getD i 0 ≠ 0)
    (hfa : f_astro nevts Nastro1yr f_diff i ≤ 1)
    (hA : i < (poissonAtm (atmMeans nevts Nastro1yr N_yr f_diff)).length)
    (hB : i < (poissonAstro (astroMeans Nastro1yr N_yr f_diff)).length) :
    f_atm nevts Nastro1yr f_diff i = 1 - f_astro nevts Nastro1yr f_diff i
    ∧ (atmMeans nevts Nastro1yr N_yr f_diff).getD i 0
        + (astroMeans Nastro1yr N_yr f_diff).getD i 0 = nevts.getD i 0 * N_yr
    ∧ ∀ p, (computeSyntheticData npix nevts Nastro1yr N_yr f_diff
              poissonAtm poissonAstro pixA pixB).getD i (fun _ => 0) p
        = (generate_event_maps npix
            (poissonAtm (atmMeans nevts Nastro1yr N_yr f_diff)) pixA).getD i
            (fun _ => 0) p
          + (astroEvent_galaxy npix
              (poissonAstro (astroMeans Nastro1yr N_yr f_diff)) pixB).getD i
              (fun _ => 0) p := by
  have hfatm : f_atm nevts Nastro1yr f_diff i = 1 - f_astro nevts Nastro1yr f_diff i := by
    rw [f_atm, if_pos hne]
  refine ⟨hfatm, ?_, fun p => ?_⟩
  · rw [atmMeans, astroMeans, getD_range_map _ _ _ _ hiN, getD_range_map _ _ _ _ hiN,
      hfatm, f_astro, if_pos hne]
    have key : ∀ a b N f : ℚ, a ≠ 0 → a * N * (1 - b * f / a) + b * N * f = a * N := by
      intro a b N f ha
      field_simp
      ring
    exact key _ _ _ _ hne
  · have h1 : i < (generate_event_maps npix
        (poissonAtm (atmMeans nevts Nastro1yr N_yr f_diff)) pixA).length := by
      rw [generate_event_maps_length]; exact hA
    have h2 : i < (astroEvent_galaxy npix
        (poissonAstro (astroMeans Nastro1yr N_yr f_diff)) pixB).length := by
      rw [astroEvent_galaxy, generate_event_maps_length]; exact hB
    rw [computeSyntheticData,
      getD_zipWith_of_lt (mapAdd npix) _ _ i (fun _ => 0) (fun _ => 0) (fun _ => 0) h1 h2]
    rfl

/-- Witness for C10 at a concrete instantiation. -/
theorem computeSyntheticData_total_rate_witness :
    ([(2 : ℚ)].getD 0 0 ≠ 0)
    ∧ (f_atm [2] [1] 1 0 = 1 - f_astro [2] [1] 1 0
      ∧ (atmMeans [2] [1] 3 1).getD 0 0 + (astroMeans [1] 3 1).getD 0 0
          = [(2 : ℚ)].getD 0 0 * 3
      ∧ ∀ p, (computeSyntheticData 1 [2] [1] 3 1
                witPoisson witPoisson witPix1 witPix1).getD 0 (fun _ => 0) p
          = (generate_event_maps 1 (witPoisson (atmMeans [2] [1] 3 1)) witPix1).getD 0
              (fun _ => 0) p
            + (astroEvent_galaxy 1 (witPoisson (astroMeans [1] 3 1)) witPix1).getD 0
                (fun _ => 0) p) :=
  ⟨by decide,
   computeSyntheticData_total_rate 1 [2] [1] 3 1 0 witPoisson witPoisson witPix1 witPix1
     (by decide) (by decide) (by norm_num [f_astro])
     (by simp [witPoisson, atmMeans, NEbin]) (by simp [witPoisson, astroMeans, NEbin])⟩

/-- C2: the test statistic returned by minimize__lnL equals exactly twice the
difference between the log-likelihood at the returned best-fit fraction vector and
the log-likelihood at the all-zero fraction vector. -/
theorem minimize__lnL_TS (S : LLHStats) (optimizer : ((ℕ → ℚ) → ℚ) → (ℕ → ℚ))
    (w_data : ℕ → ℕ → ℚ) (Ncount : ℕ → ℚ) (lmin Ebinmin Ebinmax : ℕ) :
    (minimize__lnL S optimizer w_data Ncount lmin Ebinmin Ebinmax).2
      = 2 * (lnL S (minimize__lnL S optimizer w_data Ncount lmin Ebinmin Ebinmax).1
                w_data Ncount lmin Ebinmin Ebinmax
             - lnL S (fun _ => 0) w_data Ncount lmin Ebinmin Ebinmax) :=
  rfl

/-- C1 (code bug): astroEvent_galaxy_powerlaw does not delegate the per-bin counts.
The value it stores as the per-bin expected-counts vector is the full np.histogram
result, a 2-element sequence (counts, bin edges) whose second element is the 8 bin
edges — not a per-bin counts vector, which would have NEbin = 7 entries (one per
energy bin, as the docstring of astroEvent_galaxy and every other caller require). -/
theorem powerlaw_delegates_histogram_pair :
    (powerlaw_delegated (-2) 5 100 1000000000 [0, 0, 0, 0, 0]).length = 2
    ∧ (powerlaw_delegated (-2) 5 100 1000000000 [0, 0, 0, 0, 0]).getD 1 []
        = map_logE_edgeR
    ∧ map_logE_edgeR.length = 8
    ∧ NEbin = 7
    ∧ (2 : ℕ) ≠ 7 ∧ (8 : ℕ) ≠ 7 := by
  refine ⟨rfl, rfl, rfl, rfl, by decide, by decide⟩

/-- C9: for 0 < emin ≤ emax and any spectral index alpha, randPowerLaw returns exactly
Ntotal energies and every returned energy lies in the closed interval
[emin, emax]. -/
theorem randPowerLaw_length_bounds (alpha : ℝ) (Ntotal : ℕ) (emin emax : ℝ)
    (us : List ℝ)
    (h0 : 0 < emin) (hle : emin ≤ emax) (hlen : us.length = Ntotal)
    (hus : ∀ u ∈ us, 0 ≤ u ∧ u ≤ 1) :
    (randPowerLaw alpha Ntotal emin emax us).length = Ntotal
    ∧ ∀ x ∈ randPowerLaw alpha Ntotal emin emax us, emin ≤ x ∧ x ≤ emax := by
  have h0' : (0 : ℝ) < emax := lt_of_lt_of_le h0 hle
  constructor
  · unfold randPowerLaw
    split <;> simp [hlen]
  · intro x hx
    unfold randPowerLaw at hx
    by_cases ha : alpha = -1
    · rw [if_pos ha] at hx
      obtain ⟨u, hu, rfl⟩ := List.mem_map.mp hx
      obtain ⟨hu0, hu1⟩ := hus u hu
      have hlog : Real.log emin ≤ Real.log emax := Real.log_le_log h0 hle
      have hlow : Real.log emin ≤ (Real.log emax - Real.log emin) * u + Real.log emin := by
        nlinarith
      have hhigh : (Real.log emax - Real.log emin) * u + Real.log emin ≤ Real.log emax := by
        nlinarith
      refine ⟨?_, ?_⟩
      · calc emin = Real.exp (Real.log emin) := (Real.exp_log h0).symm
          _ ≤ _ := Real.exp_le_exp.mpr hlow
      · calc Real.exp ((Real.log emax - Real.log emin) * u + Real.log emin)
            ≤ Real.exp (Real.log emax) := Real.exp_le_exp.mpr hhigh
          _ = emax := Real.exp_log h0'
    · rw [if_neg ha] at hx
      obtain ⟨u, hu, rfl⟩ := List.mem_map.mp hx
      obtain ⟨hu0, hu1⟩ := hus u hu
      have hbne : alpha + 1 ≠ 0 := fun h => ha (by linarith)
      have hApos : 0 < emin ^ (alpha + 1) := Real.rpow_pos_of_pos h0 _
      have hBpos : 0 < emax ^ (alpha + 1) := Real.rpow_pos_of_pos h0' _
      have hAinv : (emin ^ (alpha + 1)) ^ (1 / (alpha + 1)) = emin := by
        rw [one_div, Real.rpow_rpow_inv h0.le hbne]
      have hBinv : (emax ^ (alpha + 1)) ^ (1 / (alpha + 1)) = emax := by
        rw [one_div, Real.rpow_rpow_inv h0'.le hbne]
      rcases lt_or_gt_of_ne hbne with hbneg | hbpos
      · have hBA : emax ^ (alpha + 1) ≤ emin ^ (alpha + 1) :=
          Real.rpow_le_rpow_of_nonpos h0 hle hbneg.le
        have hinner_low : emax ^ (alpha + 1)
            ≤ (emax ^ (alpha + 1) - emin ^ (alpha + 1)) * u + emin ^ (alpha + 1) := by
          nlinarith
        have hinner_high : (emax ^ (alpha + 1) - emin ^ (alpha + 1)) * u + emin ^ (alpha + 1)
            ≤ emin ^ (alpha + 1) := by
          nlinarith
        have hinner_pos :
            0 < (emax ^ (alpha + 1) - emin ^ (alpha + 1)) * u + emin ^ (alpha + 1) :=
          lt_of_lt_of_le hBpos hinner_low
        have hexp_np : 1 / (alpha + 1) ≤ 0 := (one_div_neg.mpr hbneg).le
        refine ⟨?_, ?_⟩
        · exact le_trans (le_of_eq hAinv.symm)
            (Real.rpow_le_rpow_of_nonpos hinner_pos hinner_high hexp_np)
        · exact le_trans (Real.rpow_le_rpow_of_nonpos hBpos hinner_low hexp_np)
            (le_of_eq hBinv)
      · have hAB : emin ^ (alpha + 1) ≤ emax ^ (alpha + 1) :=
          Real.rpow_le_rpow h0.le hle hbpos.le
        have hinner_low : emin ^ (alpha + 1)
            ≤ (emax ^ (alpha + 1) - emin ^ (alpha + 1)) * u + emin ^ (alpha + 1) := by
          nlinarith
        have hinner_high : (emax ^ (alpha + 1) - emin ^ (alpha + 1)) * u + emin ^ (alpha + 1)
            ≤ emax ^ (alpha + 1) := by
          nlinarith
        have hexp_nn : 0 ≤ 1 / (alpha + 1) := by positivity
        refine ⟨?_, ?_⟩
        · exact le_trans (le_of_eq hAinv.symm)
            (Real.rpow_le_rpow hApos.le hinner_low hexp_nn)
        · exact le_trans
            (Real.rpow_le_rpow (le_trans hApos.le hinner_low) hinner_high hexp_nn)
            (le_of_eq hBinv)

/-- Witness for C9 at a concrete instantiation. -/
theorem randPowerLaw_length_bounds_witness :
    ((0 : ℝ) < 1 ∧ (1 : ℝ) ≤ 2)
    ∧ ((randPowerLaw 0 2 1 2 [0, 1 / 2]).length = 2
      ∧ ∀ x ∈ randPowerLaw 0 2 1 2 [0, 1 / 2], (1 : ℝ) ≤ x ∧ x ≤ 2) :=
  ⟨⟨by norm_num, by norm_num⟩,
   randPowerLaw_length_bounds 0 2 1 2 [0, 1 / 2] (by norm_num) (by norm_num) (by norm_num)
     (by intro u hu; rcases List.mem_cons.mp hu with h | h
         · rw [h]; norm_num
         · rcases List.mem_cons.mp h with h2 | h2
           · rw [h2]; norm_num
           · simp at h2)⟩

/-- C6 counterexample: for an incidence-angle cosine below -1 (outside [-1, 1]) the
lookup does NOT fail: searchsorted returns 0, the index becomes -1, and numpy
negative indexing silently returns the last table entry. -/
theorem Aeff_lookup_no_out_of_range_error :
    (-2 : ℚ) < -1
    ∧ Aeff_lookup [5, 7] [-1, 0] 0 (-2) = some 7
    ∧ Aeff_lookup [5, 7] [-1, 0] 0 (-2) ≠ none := by
  decide

/-- C6 amended: the effective-area lookup performs no range checking and cannot fail
with an error for any cosine above the lowest bin edge: whenever some bin edge lies
strictly below the cosine and the flat index is inside the table, the lookup
returns the effective area of the containing (nearest) bin; cosines below every bin
edge produce index -1, which numpy maps to the last table entry instead of failing
(and low energies are grouped to bin 0 upstream rather than rejected). -/
theorem Aeff_lookup_containing_bin (Aeff_table cosZenith_min : List ℚ) (iE : ℕ)
    (cosz : ℚ)
    (hlt : ∃ c ∈ cosZenith_min, c < cosz)
    (hidx : iE * 200 + (searchsorted cosZenith_min cosz - 1) < Aeff_table.length) :
    Aeff_lookup Aeff_table cosZenith_min iE cosz
      = Aeff_table[iE * 200 + (searchsorted cosZenith_min cosz - 1)]?
    ∧ (Aeff_lookup Aeff_table cosZenith_min iE cosz).isSome = true := by
  obtain ⟨c, hc, hclt⟩ := hlt
  have hs : 1 ≤ searchsorted cosZenith_min cosz := by
    rw [searchsorted]
    exact List.countP_pos_iff.mpr ⟨c, hc, decide_eq_true hclt⟩
  have hzeq : (iE : ℤ) * 200 + index_coszenith_Aeff_table cosZenith_min cosz
      = ((iE * 200 + (searchsorted cosZenith_min cosz - 1) : ℕ) : ℤ) := by
    rw [index_coszenith_Aeff_table]
    omega
  have hnn : (0 : ℤ) ≤ ((iE * 200 + (searchsorted cosZenith_min cosz - 1) : ℕ) : ℤ) :=
    Int.natCast_nonneg _
  have hlt2 : ((iE * 200 + (searchsorted cosZenith_min cosz - 1) : ℕ) : ℤ)
      < (Aeff_table.length : ℤ) := by
    exact_mod_cast hidx
  have hidxeq : npIndex Aeff_table
      ((iE : ℤ) * 200 + index_coszenith_Aeff_table cosZenith_min cosz)
      = ((iE * 200 + (searchsorted cosZenith_min cosz - 1) : ℕ) : ℤ) := by
    rw [hzeq, npIndex, if_neg (not_lt.mpr hnn)]
  have hmain : Aeff_lookup Aeff_table cosZenith_min iE cosz
      = Aeff_table[iE * 200 + (searchsorted cosZenith_min cosz - 1)]? := by
    rw [Aeff_lookup, npGet, hidxeq, if_pos ⟨hnn, hlt2⟩, Int.toNat_natCast]
  refine ⟨hmain, ?_⟩
  rw [hmain, List.getElem?_eq_getElem hidx]
  rfl

/-- Witness for the amended C6 at a concrete instantiation. -/
theorem Aeff_lookup_containing_bin_witness :
    (∃ c ∈ [(-1 : ℚ), 0], c < 0)
    ∧ (Aeff_lookup [5, 7, 9] [-1, 0] 0 0
        = [(5 : ℚ), 7, 9][0 * 200 + (searchsorted [-1, 0] 0 - 1)]?
      ∧ (Aeff_lookup [5, 7, 9] [-1, 0] 0 0).isSome = true) :=
  ⟨by decide,
   Aeff_lookup_containing_bin [5, 7, 9] [-1, 0] 0 0 (by decide) (by decide)⟩

lemma counts_total_foldl (npix : ℕ) (events : List (ICEvent npix))
    (acc : (Fin npix → ℚ) × (Fin npix → ℕ)) :
    mapTotal npix (events.foldl (icStep npix) acc).2
      = mapTotal npix acc.2 + (events.filter fun ev => !eventSkipped ev).length := by
  induction events generalizing acc with
  | nil => simp
  | cons e tl ih =>
    rw [List.foldl_cons, ih]
    by_cases hs : eventSkipped e
    · simp [icStep, hs, List.filter_cons]
    · have hstep : mapTotal npix (icStep npix acc e).2 = mapTotal npix acc.2 + 1 := by
        rw [icStep, if_neg hs]
        show (∑ p, (acc.2 p + if p = e.pixel then 1 else 0)) = mapTotal npix acc.2 + 1
        rw [Finset.sum_add_distrib, Finset.sum_ite_eq' Finset.univ e.pixel fun _ => 1]
        simp [mapTotal]
      rw [hstep, List.filter_cons]
      simp only [hs, Bool.not_false, if_pos]
      simp [List.length_cons]
      ring

/-- C7 counterexample: an event whose looked-up effective area is zero but whose
zenith angle is at most 90 degrees is NOT excluded by the loop guard: it contributes
1 to its counts-map pixel (and the flux map receives the division by the zero
effective area). -/
theorem zero_aeff_event_not_excluded :
    (ICEvent.mk (0 : ℚ) 80 (0 : Fin 1)).aeff = 0
    ∧ eventSkipped (ICEvent.mk (0 : ℚ) 80 (0 : Fin 1)) = false
    ∧ (fluxCountsMaps 1 [ICEvent.mk (0 : ℚ) 80 (0 : Fin 1)]).2 0 = 1 := by
  decide

/-- C7 amended: the loop excludes an event from both maps exactly when its effective
area is zero AND its zenith angle exceeds 90 degrees (the diagnostic-print branch);
the counts-map total equals the number of non-excluded events, and a single
non-excluded event contributes exactly 1 to its counts pixel and 1/Aeff to its flux
pixel — so a zero-effective-area event with zenith at most 90 degrees still enters
both maps, its flux weight being the division 1/0. -/
theorem fluxCountsMaps_exclusion_rule (npix : ℕ) (events : List (ICEvent npix))
    (e : ICEvent npix) :
    (eventSkipped e = true ↔ (e.aeff = 0 ∧ 90 < e.zenith))
    ∧ mapTotal npix (fluxCountsMaps npix events).2
        = (events.filter fun ev => !eventSkipped ev).length
    ∧ (fluxCountsMaps npix [e]).2 e.pixel = (if eventSkipped e then 0 else 1)
    ∧ (fluxCountsMaps npix [e]).1 e.pixel
        = (if eventSkipped e then 0 else 1 / e.aeff) := by
  refine ⟨?_, ?_, ?_, ?_⟩
  · rw [eventSkipped]
    simp [Bool.and_eq_true, decide_eq_true_iff]
  · rw [fluxCountsMaps, counts_total_foldl]
    simp [mapTotal]
  · by_cases hs : eventSkipped e
    · simp [fluxCountsMaps, icStep, hs]
    · simp [fluxCountsMaps, icStep, hs]
  · by_cases hs : eventSkipped e
    · simp [fluxCountsMaps, icStep, hs]
    · simp [fluxCountsMaps, icStep, hs]

set_option maxRecDepth 40000 in
/-- C8: re-seeding the random source with the same explicit seed makes two runs of a
trial with identical inputs return identical event maps, identical best-fit fraction
vectors and identical test statistics — the embedded pipeline is a deterministic
function of the seed and the inputs; without re-seeding the sampling is stochastic:
consecutive trials read an advanced random state, and concretely the two generated
map sets differ. -/
theorem seeded_trial_reproducible :
    (∀ npix S optimizer nevts dur crossCorr lmin Ebinmin Ebinmax seed,
      (twoTrialsReseeded npix S optimizer nevts dur crossCorr
        lmin Ebinmin Ebinmax seed).1
        = (twoTrialsReseeded npix S optimizer nevts dur crossCorr
            lmin Ebinmin Ebinmax seed).2)
    ∧ (twoTrialsUnseeded 1 witStats witOpt [2, 3] 1 witCC 0 0 1 (np_seed 103)).1.1
        ≠ (twoTrialsUnseeded 1 witStats witOpt [2, 3] 1 witCC 0 0 1 (np_seed 103)).2.1 :=
  ⟨fun _ _ _ _ _ _ _ _ _ _ => rfl, by decide⟩

end NuXgal
